import Mathlib

/-!
# simplecrawler: a shallow embedding of the crawl handler and its helpers

The development follows `internal/app/app.go` and `internal/crawler/crawler.go`.
Go strings are modelled by `String`, byte slices by `List UInt8`, the `error`
interface by a record carrying the text that its `Error()` method returns, and
a nil-pointer dereference (a run-time panic) by `none`.
-/

set_option autoImplicit false

namespace SimpleCrawler

/-! ## `filterUrls` (app.go, lines 195-209) -/

/-- A Go `map[string]bool`: the entries written so far, one per key. -/
abbrev GoMap := List (String × Bool)

/-- The Go expression `len(m)` for a map: its number of entries. -/
def mapLen (m : GoMap) : Nat := m.length

/-- The Go expression `m[k]`: the stored value, or the zero value `false` when
the key is absent. -/
def mapGet (m : GoMap) (k : String) : Bool :=
  match m.find? (fun e => e.1 == k) with
  | some e => e.2
  | none => false

/-- The Go statement `m[k] = v`: overwrite the entry of `k`, or add one. -/
def mapSet (m : GoMap) (k : String) (v : Bool) : GoMap :=
  if m.any (fun e => e.1 == k) then
    m.map (fun e => if e.1 == k then (k, v) else e)
  else m ++ [(k, v)]

/-- One iteration of the `for _, elem := range urls` loop of `filterUrls`,
acting on the pair `(unique, us)`. `len(elem)` is the byte length. -/
def filterStep (st : GoMap × List String) (elem : String) : GoMap × List String :=
  if elem.utf8ByteSize ≠ 0 then
    if !(mapGet st.1 elem) then
      (mapSet st.1 elem true, st.2 ++ [elem])
    else st
  else st

/-- The function `filterUrls`. `unique` is a fresh map, and `us` is created by
`make([]string, len(unique))`, that is with `len(unique)` zero-valued (empty)
strings, before the loop appends to it. -/
def filterUrls (urls : List String) : List String :=
  let unique : GoMap := []
  let us : List String := List.replicate (mapLen unique) ""
  (urls.foldl filterStep (unique, us)).2

/-- The state of the loop of `filterUrls` after the elements `seen`: `us` has no
duplicate, holds exactly the non-empty elements seen, and `unique` is true
exactly on the elements of `us`, each of its stored values being true. -/
structure FilterInv (seen : List String) (st : GoMap × List String) : Prop where
  nodup : st.2.Nodup
  mem : ∀ s, s ∈ st.2 ↔ (s ∈ seen ∧ s ≠ "")
  tracked : ∀ k, mapGet st.1 k = true ↔ k ∈ st.2
  stored : ∀ k, st.1.any (fun e => e.1 == k) = true → mapGet st.1 k = true

/-! ## The default extractor: `parseFunction` and `traverse` (app.go, lines 169-193) -/

/-- The Go type `html.NodeType` of `golang.org/x/net/html`. -/
inductive NodeType where
  | ErrorNode
  | TextNode
  | DocumentNode
  | ElementNode
  | CommentNode
  | DoctypeNode
  | RawNode
  deriving DecidableEq, Repr

/-- The Go type `html.Node`, as far as `traverse` reads it: the fields `Type` and
`Data`, and the children, which Go links through `FirstChild` and
`NextSibling` (an empty list is a nil `FirstChild`). -/
inductive Node where
  | mk (Type_ : NodeType) (Data : String) (children : List Node)
  deriving Repr

/-- The field `n.Type`. -/
def Node.Type_ : Node → NodeType
  | .mk ty _ _ => ty

/-- The field `n.Data`. -/
def Node.Data : Node → String
  | .mk _ data _ => data

/-- The children of `n`, from `n.FirstChild` along `NextSibling`. -/
def Node.children : Node → List Node
  | .mk _ _ cs => cs

mutual
/-- The function `traverse`. The result is `none` when the call panics, which
it does at `n.FirstChild.Data` when `n.FirstChild` is nil. -/
def traverse : Node → Option (String × Bool)
  | .mk ty data cs =>
    if ty = NodeType.ElementNode ∧ data = "title" then
      match cs with
      | [] => none
      | c :: _ => some (c.Data, true)
    else traverseLoop cs
/-- The loop `for c := n.FirstChild; c != nil; c = c.NextSibling` of `traverse`,
followed by its final `return "", false`. -/
def traverseLoop : List Node → Option (String × Bool)
  | [] => some ("", false)
  | c :: rest =>
    match traverse c with
    | none => none
    | some (result, ok) => if ok then some (result, ok) else traverseLoop rest
end

/-- The Go `error` interface: a non-nil error, with the text of `Error()`. -/
structure GoError where
  Error : String
  deriving DecidableEq, Repr

/-- A byte slice. -/
abbrev Bytes := List UInt8

/-- The type `crawler.ParsingFunc`, `func([]byte) (string, error)`. A call that
panics yields `none`; otherwise the returned string and the returned error
(`none` for nil). -/
abbrev ParsingFunc := Bytes → Option (String × Option GoError)

/-- The function `parseFunction`. The library call `html.Parse` is the parameter
`htmlParse`. -/
def parseFunction (htmlParse : Bytes → Except GoError Node) : ParsingFunc :=
  fun targetHTML =>
    match htmlParse targetHTML with
    | .error err => some ("", some err)
    | .ok doc =>
      match traverse doc with
      | none => none
      | some (foundedValue, _) => some (foundedValue, none)

/-! ## The crawler: `fetch`, `parse`, `Parse` (crawler.go) -/

/-- The body of an HTTP response as explicit state: what `ioutil.ReadAll` yields
on it, what `Close` returns on it, and whether `Close` has been called. -/
structure Body where
  data : Except GoError Bytes
  closeErr : Option GoError
  closed : Bool
  deriving Repr

/-- The Go type `http.Response`, as far as `fetch` reads it. -/
structure Response where
  StatusCode : Int
  Body : Body
  deriving Repr

/-- The constant `http.StatusOK`. -/
def StatusOK : Int := 200

/-- The Go call `resp.Body.Close()`: the body is closed, and the error of the
close is returned. -/
def Body.Close (b : Body) : Option GoError × Body :=
  (b.closeErr, { b with closed := true })

/-- The method `Crawler.fetch`. `client url timeout` stands for
`http.Client{Timeout: timeout}.Get(url)` and `statusText` for `http.StatusText`.
The second component is the state of the response body when `fetch` returns
(`none` when there was no response). -/
def Crawler.fetch (client : String → Nat → Except GoError Response) (statusText : Int → String)
    (url : String) (timeout : Nat) : Except GoError Bytes × Option Body :=
  match client url timeout with
  | .error err => (.error err, none)
  | .ok resp =>
    if resp.StatusCode ≠ StatusOK then
      (.error ⟨"request error with status " ++ toString resp.StatusCode ++ " "
          ++ statusText resp.StatusCode⟩, some resp.Body)
    else
      match resp.Body.data with
      | .error err => (.error err, some resp.Body)
      | .ok body =>
        match resp.Body.Close with
        | (some err, b) => (.error err, some b)
        | (none, b) => (.ok body, some b)

/-- What a call of `Crawler.Parse` returns, the string and the error, together
with the list of byte slices on which it invoked the parsing function. -/
structure ParseRun where
  value : String
  err : Option GoError
  invoked : List Bytes
  deriving DecidableEq, Repr

/-- The method `Crawler.parse`. -/
def Crawler.parse (body : Bytes) (parsingFunc : ParsingFunc) : Option (String × Option GoError) :=
  parsingFunc body

/-- The method `Crawler.Parse`; `none` when the parsing function panics. -/
def Crawler.Parse (client : String → Nat → Except GoError Response) (statusText : Int → String)
    (url : String) (parsingFunc : ParsingFunc) (timeout : Nat) : Option ParseRun :=
  match (Crawler.fetch client statusText url timeout).1 with
  | .error err => some { value := "", err := some err, invoked := [] }
  | .ok body =>
    match Crawler.parse body parsingFunc with
    | none => none
    | some (value, err) => some { value := value, err := err, invoked := [body] }

/-! ## The handler (app.go, lines 105-167) -/

/-- The unit `time.Second` of `time.Duration`, in nanoseconds. -/
def Second : Nat := 1000000000

/-- The unit `time.Millisecond` of `time.Duration`, in nanoseconds. -/
def Millisecond : Nat := 1000000

/-- The constant `DefaultParsingTimeout`. -/
def DefaultParsingTimeout : Nat := 2 * Second

/-- The struct `ParsingResult`. -/
structure ParsingResult where
  URL : String
  Result : String
  Success : Bool
  Error : String
  deriving DecidableEq, Repr

/-- The body of the goroutine that `crawlerHandler` starts for one URL, up to
the value it sends on `resultChan`; `none` when it panics. The handler passes
`parseFunction` for `parsingFunc`. -/
def crawlTask (client : String → Nat → Except GoError Response) (statusText : Int → String)
    (parsingFunc : ParsingFunc) (url : String) : Option ParsingResult :=
  match Crawler.Parse client statusText url parsingFunc DefaultParsingTimeout with
  | none => none
  | some run =>
    let errorMessage :=
      match run.err with
      | some err => err.Error
      | none => ""
    some { URL := url, Result := run.value, Success := run.err.isNone, Error := errorMessage }

/-- The loop `for i, url := range urls` of the handler with the tasks that it
starts: the values that the tasks send, in dispatch order; `none` when a task
panics. -/
def dispatch (task : String → Option ParsingResult) : List String → Option (List ParsingResult)
  | [] => some []
  | url :: rest =>
    match task url with
    | none => none
    | some r =>
      match dispatch task rest with
      | none => none
      | some rs => some (r :: rs)

/-- A value sent on `resultChan`, with the time of the send in nanoseconds
since the collection loop began to wait. -/
structure Arrival where
  time : Nat
  result : ParsingResult
  deriving DecidableEq, Repr

/-- The loop `MainLoop`. `n` is `len(urls)`, `now` the time at which the current
`select` is entered (when `time.After(timeout)` arms a new timer, due at
`now + timeout`), the list holds the values still to come on the channel in
the order of their sends, and the last argument is `resultData`. When the
next value and the timer become ready at the same instant, `select` may take
either case: `coin` decides, by the number of results collected so far. When
no value is left to come, the timer ends the loop. -/
def mainLoop (timeout n : Nat) (coin : Nat → Bool) :
    Nat → List Arrival → List ParsingResult → List ParsingResult
  | _, [], resultData => resultData
  | now, a :: rest, resultData =>
    if a.time < now + timeout ∨ (a.time = now + timeout ∧ coin resultData.length = true) then
      if n = (resultData ++ [a.result]).length then resultData ++ [a.result]
      else mainLoop timeout n coin (max now a.time) rest (resultData ++ [a.result])
    else resultData

/-- What lies outside the handler: the HTTP client, `http.StatusText`,
`html.Parse`, `json.Marshal`, the order and the times at which the results of
the dispatched tasks (given in dispatch order) are sent on the channel, and
the choices of `select`. -/
structure Env where
  client : String → Nat → Except GoError Response
  statusText : Int → String
  htmlParse : Bytes → Except GoError Node
  jsonMarshal : List ParsingResult → String
  schedule : List ParsingResult → List Arrival
  coin : Nat → Bool

/-- What the handler has done when it returns: the `Content-Type` header it set
(`none` when it set none), the body it wrote, and the URLs for which it
started a crawl task. -/
structure Reply where
  contentType : Option String
  body : String
  dispatched : List String
  deriving DecidableEq, Repr

/-- The Go expression `r.URL.Query()[key]` on a query string given as its
sequence of `key=value` pairs: the values of `key` in order, and `none` (the
`ok` of the map lookup is false) when the key does not occur. -/
def queryValues (query : List (String × String)) (key : String) : Option (List String) :=
  match (query.filter (fun kv => kv.1 == key)).map (fun kv => kv.2) with
  | [] => none
  | v :: vs => some (v :: vs)

/-- The reply of the handler's first branch. -/
def missingReply : Reply :=
  { contentType := none, body := "Query param 'url' is missing", dispatched := [] }

/-- The handler returned by `crawlerHandler`, on the query of the request;
`none` when a crawl task panics, which ends the process. -/
def crawlerHandler (env : Env) (query : List (String × String)) : Option Reply :=
  match queryValues query "url" with
  | none => some missingReply
  | some [] => none
  | some (first :: others) =>
    if first.utf8ByteSize < 1 then some missingReply
    else
      let urls := filterUrls (first :: others)
      match dispatch (crawlTask env.client env.statusText (parseFunction env.htmlParse)) urls with
      | none => none
      | some results =>
        let resultData :=
          mainLoop DefaultParsingTimeout urls.length env.coin 0 (env.schedule results) []
        some { contentType := some "application/json", body := env.jsonMarshal resultData,
               dispatched := urls }

/-! ## Document order, and the node trees of the test documents -/

/-- The test that `traverse` makes on a node: an element node named "title". -/
def Node.isTitle (n : Node) : Bool :=
  decide (n.Type_ = NodeType.ElementNode ∧ n.Data = "title")

mutual
/-- The nodes of a tree in document order (depth first, a node before its
children, the children from first to last). -/
def Node.preorder : Node → List Node
  | .mk ty data cs => Node.mk ty data cs :: preorderList cs
/-- The nodes of a sequence of sibling trees in document order. -/
def preorderList : List Node → List Node
  | [] => []
  | c :: rest => c.preorder ++ preorderList rest
end

/-- The first element node named "title" of a tree in document order. -/
def firstTitle (n : Node) : Option Node :=
  n.preorder.find? Node.isTitle

mutual
/-- The text content of a node: the data of the text nodes in it, in document
order, concatenated. -/
def Node.textContent : Node → String
  | .mk ty data cs => if ty = NodeType.TextNode then data else textContentList cs
/-- The text content of a sequence of sibling trees. -/
def textContentList : List Node → String
  | [] => ""
  | c :: rest => c.textContent ++ textContentList rest
end

/-- What `traverse` makes of the first title element of a tree: nothing found
when there is none, a panic when it has no child, else the data of its first
child. -/
def titleValue : Option Node → Option (String × Bool)
  | none => some ("", false)
  | some t =>
    match t.children with
    | [] => none
    | c :: _ => some (c.Data, true)

/-- A text node. -/
def text (data : String) : Node := Node.mk NodeType.TextNode data []

/-- An element node. -/
def element (name : String) (children : List Node) : Node :=
  Node.mk NodeType.ElementNode name children

/-- A document node with the children `<!DOCTYPE html>` and `<html>`. -/
def document (htmlChildren : List Node) : Node :=
  Node.mk NodeType.DocumentNode ""
    [Node.mk NodeType.DoctypeNode "html" [], element "html" htmlChildren]

/-- The body content shared by the documents of `TestParseFunction`, up to the
end of the document. -/
def testBodyTail : List Node :=
  [element "h1" [text "My First Heading"], text "\n\t\t\t\t\t\t\t",
   element "p" [text "My first paragraph."], text "\n\t\t\t\t\t\t\n\t\t\t\t\t"]

/-- The tree of the first document of `TestParseFunction`: a title in the head. -/
def testDoc0 : Node :=
  document
    [element "head"
       [text "\n\t\t\t\t\t\t\t", element "title" [text "First"], text "\n\t\t\t\t\t\t"],
     text "\n\t\t\t\t\t\t",
     element "body" (text "\n\t\t\t\t\t\t\t" :: testBodyTail)]

/-- The tree of the second document of `TestParseFunction`: `title>Second</title>`
is character data, which ends the head and goes to the body as text. -/
def testDoc1 : Node :=
  document
    [element "head" [text "\n\t\t\t\t\t\t\t"],
     element "body"
       (text "title>Second\n\t\t\t\t\t\t\n\t\t\t\t\t\t\n\t\t\t\t\t\t\t" :: testBodyTail)]

/-- The tree of the third document of `TestParseFunction`: no title at all. -/
def testDoc2 : Node :=
  document [element "head" [], element "body" (text "\n\t\t\t\t\t\t\t" :: testBodyTail)]

/-- The tree of the fourth document of `TestParseFunction`: a title inside the
body. -/
def testDoc3 : Node :=
  document
    [element "head" [],
     element "body"
       (text "\n                            " :: element "title" [text "bad_position"]
         :: text "\n\t\t\t\t\t\t\t" :: testBodyTail)]

/-- The tree of the document `<title></title>`: the title element has no child. -/
def emptyTitleDoc : Node :=
  Node.mk NodeType.DocumentNode ""
    [element "html" [element "head" [element "title" []], element "body" []]]

/-- The tree of the document `<svg><title><b>x</b></title></svg>`: inside `svg` a
title element takes markup, and its first child here is the element `b`. -/
def svgTitleDoc : Node :=
  Node.mk NodeType.DocumentNode ""
    [element "html"
       [element "head" [],
        element "body" [element "svg" [element "title" [element "b" [text "x"]]]]]]

/-- The tree of the document `title<!--title-->`: a text node and a comment node
whose data is "title", and no title element. -/
def titleTextDoc : Node :=
  Node.mk NodeType.DocumentNode ""
    [element "html"
       [element "head" [],
        element "body" [text "title", Node.mk NodeType.CommentNode "title" []]]]

/-- An `html.Parse` that yields the given tree on every input, without error. -/
def parseTo (doc : Node) : Bytes → Except GoError Node :=
  fun _ => Except.ok doc

/-! ## Clients, parsers and results used at concrete inputs -/

/-- An HTTP client that receives, for every URL, a response with the given
status code and body, the body not yet closed and closing without error. -/
def respondingClient (code : Int) (data : Except GoError Bytes) :
    String → Nat → Except GoError Response :=
  fun _ _ => Except.ok { StatusCode := code, Body := { data := data, closeErr := none, closed := false } }

/-- The entries of `http.StatusText` for the status codes 200 and 404. -/
def statusTextOf (code : Int) : String :=
  if code = 200 then "OK" else if code = 404 then "Not Found" else ""

/-- Whether each value of the list, in the order of the sends, is sent before
the timer of the `select` that waits for it is due: no timeout fires before
the delivery of any of them. `now` is the time at which the first of these
`select`s is entered. -/
def deliveredInTime (timeout : Nat) : Nat → List Arrival → Bool
  | _, [] => true
  | now, a :: rest =>
    decide (a.time < now + timeout) && deliveredInTime timeout (max now a.time) rest

/-- The time at which the loop enters its next `select` after it has entered one
at `now` and received the given values since. -/
def clock : Nat → List Arrival → Nat
  | now, [] => now
  | now, a :: rest => clock (max now a.time) rest

/-- The result of a successful crawl task for the URL `http://a`. -/
def resultA : ParsingResult :=
  { URL := "http://a", Result := "A", Success := true, Error := "" }

/-- The result of a successful crawl task for the URL `http://b`. -/
def resultB : ParsingResult :=
  { URL := "http://b", Result := "B", Success := true, Error := "" }

/-- An environment for concrete requests: every fetch gets the first document of
`TestParseFunction`, every result is sent at once and in dispatch order, and
the body is written as the list of the URLs of the results, which stands in
for `json.Marshal` here. -/
def demoEnv : Env :=
  { client := respondingClient 200 (Except.ok [])
    statusText := statusTextOf
    htmlParse := parseTo testDoc0
    jsonMarshal := fun rs => "[" ++ ",".intercalate (rs.map (fun r => r.URL)) ++ "]"
    schedule := fun rs => rs.map (fun r => { time := 0, result := r })
    coin := fun _ => true }

/-! ## Facts about `filterUrls` -/

theorem utf8ByteSize_go_eq_zero (cs : List Char) : String.utf8ByteSize.go cs = 0 ↔ cs = [] := by
  cases cs with
  | nil => simp [String.utf8ByteSize.go]
  | cons c cs =>
    have h := Char.utf8Size_pos c
    simp [String.utf8ByteSize.go]
    omega

theorem utf8ByteSize_eq_zero (s : String) : s.utf8ByteSize = 0 ↔ s = "" := by
  cases s with
  | mk cs =>
    rw [String.utf8ByteSize, utf8ByteSize_go_eq_zero]
    constructor
    · intro h; subst h; rfl
    · intro h; exact congrArg String.data h

theorem mapGet_append_single (m : GoMap) (k k2 : String)
    (h : m.any (fun e => e.1 == k) = false) :
    mapGet (m ++ [(k, true)]) k2 = true ↔ (k2 = k ∨ mapGet m k2 = true) := by
  unfold mapGet
  rw [List.find?_append]
  cases hf : m.find? (fun e => e.1 == k2) with
  | some e =>
    have hk : e.1 = k2 := by simpa using List.find?_some hf
    have hm : e ∈ m := List.mem_of_find?_eq_some hf
    have hne : k2 ≠ k := by
      intro hkk
      have := List.any_eq_false.mp h e hm
      simp [hk, hkk] at this
    simp [hne]
  | none =>
    by_cases hk : k = k2
    · simp [hk]
    · have hk2 : ¬ k2 = k := fun h2 => hk h2.symm
      simp [hk, hk2]

theorem mapGet_true_any (m : GoMap) (k : String) (h : mapGet m k = true) :
    m.any (fun e => e.1 == k) = true := by
  unfold mapGet at h
  cases hf : m.find? (fun e => e.1 == k) with
  | some e =>
    have hk : e.1 = k := by simpa using List.find?_some hf
    have hm : e ∈ m := List.mem_of_find?_eq_some hf
    exact List.any_eq_true.mpr ⟨e, hm, by simp [hk]⟩
  | none => simp [hf] at h

theorem filterStep_inv (seen : List String) (st : GoMap × List String) (elem : String)
    (h : FilterInv seen st) : FilterInv (seen ++ [elem]) (filterStep st elem) := by
  unfold filterStep
  by_cases he : elem.utf8ByteSize = 0
  · have he2 : elem = "" := (utf8ByteSize_eq_zero elem).mp he
    simp only [he, ne_eq, not_true_eq_false, if_false]
    refine ⟨h.nodup, ?_, h.tracked, h.stored⟩
    intro s
    rw [h.mem s]
    constructor
    · rintro ⟨h1, h2⟩; exact ⟨by simp [h1], h2⟩
    · rintro ⟨h1, h2⟩
      refine ⟨?_, h2⟩
      rcases List.mem_append.mp h1 with h3 | h3
      · exact h3
      · simp at h3; exact absurd (h3.trans he2) h2
  · have he2 : elem ≠ "" := fun h2 => he ((utf8ByteSize_eq_zero elem).mpr h2)
    simp only [ne_eq, he, not_false_eq_true, if_true]
    cases hg : mapGet st.1 elem with
    | true =>
      simp only [Bool.not_true, Bool.false_eq_true, if_false]
      have hin : elem ∈ st.2 := (h.tracked elem).mp hg
      refine ⟨h.nodup, ?_, h.tracked, h.stored⟩
      intro s
      rw [h.mem s]
      constructor
      · rintro ⟨h1, h2⟩; exact ⟨by simp [h1], h2⟩
      · rintro ⟨h1, h2⟩
        refine ⟨?_, h2⟩
        rcases List.mem_append.mp h1 with h3 | h3
        · exact h3
        · simp at h3; subst h3; exact ((h.mem s).mp hin).1
    | false =>
      simp only [Bool.not_false, if_true]
      have hnin : elem ∉ st.2 := fun hin => by
        have := (h.tracked elem).mpr hin
        simp [hg] at this
      have hany : st.1.any (fun e => e.1 == elem) = false := by
        cases ha : st.1.any (fun e => e.1 == elem) with
        | false => rfl
        | true => have := h.stored elem ha; simp [hg] at this
      have hset : mapSet st.1 elem true = st.1 ++ [(elem, true)] := by
        unfold mapSet; simp only [hany, Bool.false_eq_true, if_false]
      refine ⟨?_, ?_, ?_, ?_⟩
      · show (st.2 ++ [elem]).Nodup
        rw [List.nodup_append]
        refine ⟨h.nodup, List.nodup_singleton elem, ?_⟩
        intro a ha hb
        simp at hb; subst hb; exact hnin ha
      · intro s
        show s ∈ st.2 ++ [elem] ↔ _
        rw [List.mem_append, h.mem s, List.mem_append]
        constructor
        · rintro (⟨h1, h2⟩ | h1)
          · exact ⟨Or.inl h1, h2⟩
          · simp at h1; subst h1; exact ⟨Or.inr (by simp), he2⟩
        · rintro ⟨h1 | h1, h2⟩
          · exact Or.inl ⟨h1, h2⟩
          · exact Or.inr h1
      · intro k
        show mapGet (mapSet st.1 elem true) k = true ↔ k ∈ st.2 ++ [elem]
        rw [hset, mapGet_append_single st.1 elem k hany, List.mem_append, h.tracked k]
        simp [or_comm]
      · intro k hk
        show mapGet (mapSet st.1 elem true) k = true
        rw [hset] at hk ⊢
        rw [mapGet_append_single st.1 elem k hany]
        rw [List.any_append] at hk
        rcases (Bool.or_eq_true _ _).mp hk with h1 | h1
        · exact Or.inr (h.stored k h1)
        · left
          simp only [List.any_cons, List.any_nil, Bool.or_false, beq_iff_eq] at h1
          exact h1.symm

theorem foldl_filterStep_inv (rest seen : List String) (st : GoMap × List String)
    (h : FilterInv seen st) : FilterInv (seen ++ rest) (rest.foldl filterStep st) := by
  induction rest generalizing seen st with
  | nil => simpa using h
  | cons x xs ih =>
    have := ih (seen ++ [x]) (filterStep st x) (filterStep_inv seen st x h)
    simpa using this

theorem filterUrls_inv (urls : List String) :
    FilterInv urls (urls.foldl filterStep ([], [])) := by
  have h0 : FilterInv [] (([], []) : GoMap × List String) :=
    ⟨List.nodup_nil, by simp, by simp [mapGet], by simp⟩
  simpa using foldl_filterStep_inv urls [] _ h0

/-- C1: `filterUrls` returns a list without the empty string and without
duplicates, a string is in it exactly when it is a non-empty element of the
input, and its length is the number of distinct non-empty input strings. -/
theorem filterUrls_distinct_nonempty (urls : List String) :
    "" ∉ filterUrls urls ∧ (filterUrls urls).Nodup ∧
    (∀ s, s ∈ filterUrls urls ↔ (s ∈ urls ∧ s ≠ "")) ∧
    (filterUrls urls).length = (urls.filter (fun s => decide (s ≠ ""))).toFinset.card := by
  have h := filterUrls_inv urls
  have hout : filterUrls urls = (urls.foldl filterStep ([], [])).2 := rfl
  rw [hout]
  refine ⟨?_, h.nodup, h.mem, ?_⟩
  · intro hm; exact ((h.mem "").mp hm).2 rfl
  · rw [← List.toFinset_card_of_nodup h.nodup]
    congr 1
    ext s
    simp [h.mem s]

/-! ## Facts about `traverse` and `parseFunction` -/

mutual
theorem traverse_eq_titleValue : ∀ n : Node, traverse n = titleValue (firstTitle n)
  | .mk ty data cs => by
    by_cases h : ty = NodeType.ElementNode ∧ data = "title"
    · obtain ⟨h1, h2⟩ := h
      subst h1 h2
      have ht : Node.isTitle (Node.mk NodeType.ElementNode "title" cs) = true := by
        simp [Node.isTitle, Node.Type_, Node.Data]
      simp only [traverse, and_self, if_true, firstTitle, Node.preorder, List.find?_cons, ht,
        titleValue, Node.children]
    · have ht : Node.isTitle (Node.mk ty data cs) = false := by
        simp [Node.isTitle, Node.Type_, Node.Data, h]
      simp only [traverse, h, if_false, firstTitle, Node.preorder, List.find?_cons, ht]
      exact traverseLoop_eq_titleValue cs
theorem traverseLoop_eq_titleValue :
    ∀ cs : List Node, traverseLoop cs = titleValue ((preorderList cs).find? Node.isTitle)
  | [] => by simp [traverseLoop, preorderList, titleValue]
  | c :: rest => by
    have h1 := traverse_eq_titleValue c
    have h2 := traverseLoop_eq_titleValue rest
    unfold firstTitle at h1
    simp only [traverseLoop, preorderList, List.find?_append, h1]
    cases hf : c.preorder.find? Node.isTitle with
    | none => simp [titleValue, h2]
    | some t =>
      cases hc : t.children with
      | nil => simp [titleValue, hc]
      | cons d ds => simp [titleValue, hc]
end

theorem firstTitle_isTitle (doc t : Node) (h : firstTitle doc = some t) :
    t.Type_ = NodeType.ElementNode ∧ t.Data = "title" := by
  have := List.find?_some h
  simpa [Node.isTitle] using this

theorem firstTitle_none_of_no_title (doc : Node)
    (h : ∀ n ∈ doc.preorder, ¬ (n.Type_ = NodeType.ElementNode ∧ n.Data = "title")) :
    firstTitle doc = none := by
  unfold firstTitle
  rw [List.find?_eq_none]
  intro n hn
  simpa [Node.isTitle] using h n hn

theorem textContent_single_text (t c : Node) (ht : t.Type_ = NodeType.ElementNode)
    (hc : c.Type_ = NodeType.TextNode) (hcs : t.children = [c]) : t.textContent = c.Data := by
  cases t with
  | mk ty data cs =>
    cases c with
    | mk cty cdata ccs =>
      simp only [Node.Type_] at ht hc
      simp only [Node.children] at hcs
      subst ht hc hcs
      simp [Node.textContent, textContentList, Node.Data]

/-- C3, the claim fails on this input: in the tree of
`<svg><title><b>x</b></title></svg>` the first title element has the text
content "x", and `parseFunction` returns "b", the name of its first child. -/
theorem parseFunction_svgTitle_not_textContent :
    firstTitle svgTitleDoc = some (element "title" [element "b" [text "x"]]) ∧
    (element "title" [element "b" [text "x"]]).textContent = "x" ∧
    parseFunction (parseTo svgTitleDoc) [] = some ("b", none) := by
  refine ⟨rfl, by decide, by decide⟩

/-- C3, amended: when the first element node named "title" in document order has
a first child, `parseFunction` returns without error the data of that first
child, wherever the element sits and whatever follows it; this is the text
content of the element when the child is a text node and the only child. -/
theorem parseFunction_first_title_child (htmlParse : Bytes → Except GoError Node)
    (input : Bytes) (doc t c : Node) (cs : List Node)
    (hparse : htmlParse input = Except.ok doc) (hfirst : firstTitle doc = some t)
    (hchild : t.children = c :: cs) :
    parseFunction htmlParse input = some (c.Data, none) ∧
    (c.Type_ = NodeType.TextNode → cs = [] → c.Data = t.textContent) := by
  constructor
  · simp [parseFunction, hparse, traverse_eq_titleValue, hfirst, titleValue, hchild]
  · intro hc hcs
    subst hcs
    exact (textContent_single_text t c (firstTitle_isTitle doc t hfirst).1 hc hchild).symm

/-- C3, amended, on the first and the fourth document of `TestParseFunction`:
"First" for the title in the head, "bad_position" for the title in the body. -/
theorem parseFunction_first_title_child_witness :
    (parseFunction (parseTo testDoc0) [] = some ("First", none) ∧
      "First" = (element "title" [text "First"]).textContent) ∧
    parseFunction (parseTo testDoc3) [] = some ("bad_position", none) :=
  ⟨(parseFunction_first_title_child (parseTo testDoc0) [] testDoc0
      (element "title" [text "First"]) (text "First") [] rfl rfl rfl).imp id
      (fun h => h rfl rfl),
   (parseFunction_first_title_child (parseTo testDoc3) [] testDoc3
      (element "title" [text "bad_position"]) (text "bad_position") [] rfl rfl rfl).1⟩

/-- C4: on a tree with no element node named "title", `parseFunction` returns the
empty string and no error, whatever data the other nodes carry. -/
theorem parseFunction_no_title (htmlParse : Bytes → Except GoError Node) (input : Bytes)
    (doc : Node) (hparse : htmlParse input = Except.ok doc)
    (hnone : ∀ n ∈ doc.preorder, ¬ (n.Type_ = NodeType.ElementNode ∧ n.Data = "title")) :
    traverse doc = some ("", false) ∧ parseFunction htmlParse input = some ("", none) := by
  have h := firstTitle_none_of_no_title doc hnone
  simp [parseFunction, hparse, traverse_eq_titleValue, h, titleValue]

/-- C4 on the second document of `TestParseFunction`, whose body has the text
`title>Second`, on the third one, and on a tree with a text node and a comment
node of data "title". -/
theorem parseFunction_no_title_witness :
    (((testDoc1.preorder.filter (fun n => n.Type_ = NodeType.TextNode)).map Node.Data).contains
        "title>Second\n\t\t\t\t\t\t\n\t\t\t\t\t\t\n\t\t\t\t\t\t\t" = true ∧
      parseFunction (parseTo testDoc1) [] = some ("", none)) ∧
    parseFunction (parseTo testDoc2) [] = some ("", none) ∧
    ((titleTextDoc.preorder.filter (fun n => n.Data == "title")).map Node.Type_
        = [NodeType.TextNode, NodeType.CommentNode] ∧
      parseFunction (parseTo titleTextDoc) [] = some ("", none)) :=
  ⟨⟨by decide, (parseFunction_no_title (parseTo testDoc1) [] testDoc1 rfl (by decide)).2⟩,
   (parseFunction_no_title (parseTo testDoc2) [] testDoc2 rfl (by decide)).2,
   ⟨by decide, (parseFunction_no_title (parseTo titleTextDoc) [] titleTextDoc rfl (by decide)).2⟩⟩

theorem traverse_eq_none_iff (n : Node) :
    traverse n = none ↔ ∃ t, firstTitle n = some t ∧ t.children = [] := by
  rw [traverse_eq_titleValue]
  cases hf : firstTitle n with
  | none => simp [titleValue]
  | some t =>
    cases hc : t.children with
    | nil => simp [titleValue, hc]
    | cons c cs => simp [titleValue, hc]

/-- C10, the code on the tree of `<title></title>`: the title element has no
child, `traverse` dereferences the nil `FirstChild` and panics, and so do
`parseFunction` and the crawl task that runs it. -/
theorem traverse_emptyTitle_panics (statusText : Int → String) (url : String) (body : Bytes) :
    firstTitle emptyTitleDoc = some (element "title" []) ∧
    traverse emptyTitleDoc = none ∧
    parseFunction (parseTo emptyTitleDoc) body = none ∧
    crawlTask (fun _ _ => Except.ok ⟨200, ⟨Except.ok body, none, false⟩⟩) statusText
      (parseFunction (parseTo emptyTitleDoc)) url = none := by
  have h1 : firstTitle emptyTitleDoc = some (element "title" []) := rfl
  have h2 : traverse emptyTitleDoc = none := by
    rw [traverse_eq_titleValue, h1]; rfl
  refine ⟨h1, h2, ?_, ?_⟩
  · simp [parseFunction, parseTo, h2]
  · simp [crawlTask, Crawler.Parse, Crawler.fetch, Crawler.parse, StatusOK, Body.Close,
      parseFunction, parseTo, h2]

/-! ## Facts about `fetch`, `Parse` and the crawl task -/

theorem crawlTask_of_fetch_error (client : String → Nat → Except GoError Response)
    (statusText : Int → String) (parsingFunc : ParsingFunc) (url : String) (e : GoError)
    (h : (Crawler.fetch client statusText url DefaultParsingTimeout).1 = Except.error e) :
    Crawler.Parse client statusText url parsingFunc DefaultParsingTimeout
      = some { value := "", err := some e, invoked := [] } ∧
    crawlTask client statusText parsingFunc url
      = some { URL := url, Result := "", Success := false, Error := e.Error } := by
  simp [crawlTask, Crawler.Parse, h]

theorem crawlTask_of_fetch_ok (client : String → Nat → Except GoError Response)
    (statusText : Int → String) (parsingFunc : ParsingFunc) (url : String) (body : Bytes)
    (h : (Crawler.fetch client statusText url DefaultParsingTimeout).1 = Except.ok body) :
    crawlTask client statusText parsingFunc url =
      match parsingFunc body with
      | none => none
      | some (value, none) => some { URL := url, Result := value, Success := true, Error := "" }
      | some (value, some e) =>
        some { URL := url, Result := value, Success := false, Error := e.Error } := by
  simp only [crawlTask, Crawler.Parse, h, Crawler.parse]
  cases hp : parsingFunc body with
  | none => rfl
  | some p =>
    obtain ⟨value, err⟩ := p
    cases err <;> rfl

theorem crawlTask_URL (client : String → Nat → Except GoError Response)
    (statusText : Int → String) (parsingFunc : ParsingFunc) (url : String) (r : ParsingResult)
    (h : crawlTask client statusText parsingFunc url = some r) : r.URL = url := by
  unfold crawlTask at h
  cases hp : Crawler.Parse client statusText url parsingFunc DefaultParsingTimeout with
  | none => simp [hp] at h
  | some run =>
    simp only [hp, Option.some.injEq] at h
    rw [← h]

theorem statusError_ne_empty (code text : String) :
    "request error with status " ++ code ++ " " ++ text ≠ "" := by
  intro h
  have hl := congrArg String.length h
  simp only [String.length_append] at hl
  have h26 : ("request error with status ").length = 26 := by decide
  have h0 : ("").length = 0 := by decide
  omega

theorem fetch_error_text (client : String → Nat → Except GoError Response)
    (statusText : Int → String) (url : String) (timeout : Nat)
    (hget : ∀ e, client url timeout = Except.error e → e.Error ≠ "")
    (hread : ∀ resp e, client url timeout = Except.ok resp →
      resp.Body.data = Except.error e → e.Error ≠ "")
    (hclose : ∀ resp e, client url timeout = Except.ok resp →
      resp.Body.closeErr = some e → e.Error ≠ "")
    (e : GoError) (h : (Crawler.fetch client statusText url timeout).1 = Except.error e) :
    e.Error ≠ "" := by
  unfold Crawler.fetch at h
  cases hc : client url timeout with
  | error err =>
    simp only [hc, Except.error.injEq] at h
    subst h
    exact hget err hc
  | ok resp =>
    simp only [hc] at h
    by_cases hs : resp.StatusCode = StatusOK
    · simp only [hs, ne_eq, not_true_eq_false, if_false] at h
      cases hd : resp.Body.data with
      | error err =>
        simp only [hd, Except.error.injEq] at h
        subst h
        exact hread resp err hc hd
      | ok body =>
        simp only [hd, Body.Close] at h
        cases hce : resp.Body.closeErr with
        | none => simp [hce] at h
        | some err =>
          simp only [hce, Except.error.injEq] at h
          subst h
          exact hclose resp err hc hce
    · simp only [ne_eq, hs, not_false_eq_true, if_true, Except.error.injEq] at h
      subst h
      exact statusError_ne_empty _ _

theorem parseFunction_error (htmlParse : Bytes → Except GoError Node) (body : Bytes)
    (value : String) (e : GoError) (h : parseFunction htmlParse body = some (value, some e)) :
    value = "" ∧ htmlParse body = Except.error e := by
  unfold parseFunction at h
  cases hd : htmlParse body with
  | error err =>
    simp only [hd, Option.some.injEq, Prod.mk.injEq] at h
    exact ⟨h.1.symm, by rw [h.2]⟩
  | ok doc =>
    simp only [hd] at h
    cases ht : traverse doc with
    | none => simp [ht] at h
    | some p => simp [ht] at h

/-- C7: the crawl task of the handler, which runs `parseFunction`, builds a result
unless the extraction panics, whatever the fetch and `html.Parse` yield; in
every result it builds, the status is true exactly when the error field is
the empty string, and exactly when the fetch and the extraction both
succeeded. The errors that come from the libraries (the HTTP client, the read
and the close of the body, `html.Parse`) carry a text that is not empty; the
error of a status other than 200 is built by `fetch` itself. -/
theorem crawlTask_status (client : String → Nat → Except GoError Response)
    (statusText : Int → String) (htmlParse : Bytes → Except GoError Node) (url : String)
    (hget : ∀ e, client url DefaultParsingTimeout = Except.error e → e.Error ≠ "")
    (hread : ∀ resp e, client url DefaultParsingTimeout = Except.ok resp →
      resp.Body.data = Except.error e → e.Error ≠ "")
    (hclose : ∀ resp e, client url DefaultParsingTimeout = Except.ok resp →
      resp.Body.closeErr = some e → e.Error ≠ "")
    (hparse : ∀ body e, htmlParse body = Except.error e → e.Error ≠ "") :
    (crawlTask client statusText (parseFunction htmlParse) url = none ↔
      ∃ body, (Crawler.fetch client statusText url DefaultParsingTimeout).1 = Except.ok body ∧
        parseFunction htmlParse body = none) ∧
    ∀ r, crawlTask client statusText (parseFunction htmlParse) url = some r →
      (r.Success = true ↔ r.Error = "") ∧
      (r.Success = true ↔
        ∃ body value,
          (Crawler.fetch client statusText url DefaultParsingTimeout).1 = Except.ok body ∧
          parseFunction htmlParse body = some (value, none)) := by
  cases hf : (Crawler.fetch client statusText url DefaultParsingTimeout).1 with
  | error e =>
    have h := (crawlTask_of_fetch_error client statusText (parseFunction htmlParse) url e hf).2
    have he := fetch_error_text client statusText url DefaultParsingTimeout hget hread hclose e hf
    refine ⟨by simp [h], ?_⟩
    intro r hr
    rw [h] at hr
    cases hr
    exact ⟨by simp [he], by simp⟩
  | ok body =>
    have h := crawlTask_of_fetch_ok client statusText (parseFunction htmlParse) url body hf
    cases hp : parseFunction htmlParse body with
    | none =>
      rw [hp] at h
      refine ⟨by simp [h, hp], ?_⟩
      intro r hr
      rw [h] at hr
      cases hr
    | some p =>
      obtain ⟨value, err⟩ := p
      rw [hp] at h
      cases err with
      | none =>
        simp only at h
        refine ⟨by simp [h, hp], ?_⟩
        intro r hr
        rw [h] at hr
        cases hr
        simp [hp]
      | some e =>
        simp only at h
        have he : e.Error ≠ "" := hparse body e (parseFunction_error htmlParse body value e hp).2
        refine ⟨by simp [h, hp], ?_⟩
        intro r hr
        rw [h] at hr
        cases hr
        exact ⟨by simp [he], by simp [hp]⟩

/-- C7 on three tasks of the handler: one whose fetch and extraction succeed, one
whose fetch gets the status 404, and one whose body cannot be read. -/
theorem crawlTask_status_witness :
    (crawlTask (respondingClient 200 (Except.ok [])) statusTextOf
        (parseFunction (parseTo testDoc0)) "http://a"
      = some ⟨"http://a", "First", true, ""⟩ ∧ ((true = true) ↔ ("" = ""))) ∧
    (crawlTask (respondingClient 404 (Except.ok [])) statusTextOf
        (parseFunction (parseTo testDoc0)) "http://a"
      = some ⟨"http://a", "", false, "request error with status 404 Not Found"⟩ ∧
      ((false = true) ↔ ("request error with status 404 Not Found" = ""))) ∧
    (crawlTask (respondingClient 200 (Except.error ⟨"unexpected EOF"⟩)) statusTextOf
        (parseFunction (parseTo testDoc0)) "http://a"
      = some ⟨"http://a", "", false, "unexpected EOF"⟩ ∧
      ((false = true) ↔ ("unexpected EOF" = ""))) :=
  ⟨⟨rfl, ((crawlTask_status (respondingClient 200 (Except.ok [])) statusTextOf
      (parseTo testDoc0) "http://a" (fun _ h => nomatch h)
      (fun _ _ h1 h2 => by cases h1; cases h2) (fun _ _ h1 h2 => by cases h1; cases h2)
      (fun _ _ h => nomatch h)).2 ⟨"http://a", "First", true, ""⟩ rfl).1⟩,
   ⟨by decide, ((crawlTask_status (respondingClient 404 (Except.ok [])) statusTextOf
      (parseTo testDoc0) "http://a" (fun _ h => nomatch h)
      (fun _ _ h1 h2 => by cases h1; cases h2) (fun _ _ h1 h2 => by cases h1; cases h2)
      (fun _ _ h => nomatch h)).2
        ⟨"http://a", "", false, "request error with status 404 Not Found"⟩ (by decide)).1⟩,
   ⟨by decide, ((crawlTask_status (respondingClient 200 (Except.error ⟨"unexpected EOF"⟩))
      statusTextOf (parseTo testDoc0) "http://a" (fun _ h => nomatch h)
      (fun _ e h1 h2 => by cases h1; cases h2; decide)
      (fun _ _ h1 h2 => by cases h1; cases h2)
      (fun _ _ h => nomatch h)).2 ⟨"http://a", "", false, "unexpected EOF"⟩ (by decide)).1⟩⟩

theorem fetch_body_closed_iff (client : String → Nat → Except GoError Response)
    (statusText : Int → String) (url : String) (timeout : Nat) (resp : Response)
    (hresp : client url timeout = Except.ok resp) (hopen : resp.Body.closed = false) :
    ∃ b, (Crawler.fetch client statusText url timeout).2 = some b ∧
      (b.closed = true ↔ (resp.StatusCode = StatusOK ∧ ∃ body, resp.Body.data = Except.ok body)) := by
  unfold Crawler.fetch
  rw [hresp]
  by_cases hs : resp.StatusCode = StatusOK
  · cases hd : resp.Body.data with
    | error err => simp [hs, hd, hopen]
    | ok body =>
      cases hc : resp.Body.closeErr with
      | none => simp [hs, hd, Body.Close, hc]
      | some err => simp [hs, hd, Body.Close, hc]
  · simp [hs, hopen]

/-- C9, the code on a response with the status 404, and on a response with the
status 200 whose body cannot be read: `fetch` returns the error and the body of
the response has not been closed. On the success path it has been. -/
theorem fetch_leaves_body_open :
    Crawler.fetch (respondingClient 404 (Except.ok [])) statusTextOf "http://a"
        DefaultParsingTimeout
      = (Except.error ⟨"request error with status 404 Not Found"⟩,
         some { data := Except.ok [], closeErr := none, closed := false }) ∧
    Crawler.fetch (respondingClient 200 (Except.error ⟨"unexpected EOF"⟩)) statusTextOf "http://a"
        DefaultParsingTimeout
      = (Except.error ⟨"unexpected EOF"⟩,
         some { data := Except.error ⟨"unexpected EOF"⟩, closeErr := none, closed := false }) ∧
    Crawler.fetch (respondingClient 200 (Except.ok [])) statusTextOf "http://a"
        DefaultParsingTimeout
      = (Except.ok [], some { data := Except.ok [], closeErr := none, closed := true }) :=
  ⟨rfl, rfl, rfl⟩

/-! ## Facts about the collection loop -/

theorem mainLoop_all (timeout n : Nat) (coin : Nat → Bool) (extra : List Arrival) :
    ∀ (pending : List Arrival) (now : Nat) (acc : List ParsingResult),
      pending ≠ [] → acc.length + pending.length = n →
      deliveredInTime timeout now pending = true →
      mainLoop timeout n coin now (pending ++ extra) acc = acc ++ pending.map Arrival.result
  | [], _, _, hne, _, _ => absurd rfl hne
  | [a], now, acc, _, hlen, htime => by
    simp only [deliveredInTime, Bool.and_eq_true, decide_eq_true_eq] at htime
    have hn : n = acc.length + 1 := by simpa using hlen.symm
    simp [mainLoop, htime.1, hn]
  | a :: b :: rest, now, acc, _, hlen, htime => by
    rw [deliveredInTime, Bool.and_eq_true, decide_eq_true_eq] at htime
    have hn : ¬ n = acc.length + 1 := by
      simp only [List.length_cons] at hlen; omega
    have ih := mainLoop_all timeout n coin extra (b :: rest) (max now a.time) (acc ++ [a.result])
      (by simp)
      (by simp only [List.length_append, List.length_cons, List.length_nil] at hlen ⊢; omega)
      htime.2
    rw [List.cons_append, mainLoop]
    simp only [htime.1, true_or, if_true, List.length_append, List.length_singleton, hn, if_false]
    rw [ih]
    simp

theorem dispatch_crawlTask_urls (client : String → Nat → Except GoError Response)
    (statusText : Int → String) (parsingFunc : ParsingFunc) :
    ∀ (urls : List String) (results : List ParsingResult),
      dispatch (crawlTask client statusText parsingFunc) urls = some results →
      results.map ParsingResult.URL = urls
  | [], results, h => by
    simp only [dispatch, Option.some.injEq] at h
    subst h; rfl
  | u :: us, results, h => by
    unfold dispatch at h
    cases ht : crawlTask client statusText parsingFunc u with
    | none => simp [ht] at h
    | some r =>
      cases hm : dispatch (crawlTask client statusText parsingFunc) us with
      | none => simp [ht, hm] at h
      | some rs =>
        simp only [ht, hm, Option.some.injEq] at h
        subst h
        simp [crawlTask_URL client statusText parsingFunc u r ht,
          dispatch_crawlTask_urls client statusText parsingFunc us rs hm]

theorem dispatch_isSome (task : String → Option ParsingResult) :
    ∀ urls : List String, (∀ u ∈ urls, task u ≠ none) → ∃ results, dispatch task urls = some results
  | [], _ => ⟨[], rfl⟩
  | u :: us, h => by
    obtain ⟨rs, hrs⟩ := dispatch_isSome task us (fun v hv => h v (List.mem_cons_of_mem u hv))
    cases ht : task u with
    | none => exact absurd ht (h u (List.mem_cons_self u us))
    | some r => exact ⟨r :: rs, by simp [dispatch, ht, hrs]⟩

theorem mainLoop_gap (timeout n : Nat) (coin : Nat → Bool) (late : Arrival)
    (post : List Arrival) :
    ∀ (pre : List Arrival) (now : Nat) (acc : List ParsingResult),
      acc.length + pre.length < n → deliveredInTime timeout now pre = true →
      clock now pre + timeout < late.time →
      mainLoop timeout n coin now (pre ++ late :: post) acc = acc ++ pre.map Arrival.result
  | [], now, acc, _, _, hlate => by
    simp only [clock] at hlate
    have h1 : ¬ late.time < now + timeout := by omega
    have h2 : ¬ late.time = now + timeout := by omega
    simp [mainLoop, h1, h2]
  | a :: rest, now, acc, hlen, htime, hlate => by
    rw [deliveredInTime, Bool.and_eq_true, decide_eq_true_eq] at htime
    rw [clock] at hlate
    have hn : ¬ n = acc.length + 1 := by
      simp only [List.length_cons] at hlen; omega
    have ih := mainLoop_gap timeout n coin late post rest (max now a.time) (acc ++ [a.result])
      (by simp only [List.length_append, List.length_cons, List.length_nil] at hlen ⊢; omega)
      htime.2 hlate
    rw [List.cons_append, mainLoop]
    simp only [htime.1, true_or, if_true, List.length_append, List.length_singleton, hn, if_false]
    rw [ih]
    simp

/-- C5, the claim fails on this input: of two tasks the results are sent 500 ms
and 2001 ms after the loop began to wait; the second one is sent after
`DefaultParsingTimeout` has elapsed, and the loop returns both results,
because each `select` arms a new timer. -/
theorem mainLoop_collects_after_deadline :
    DefaultParsingTimeout < 2001 * Millisecond ∧
    mainLoop DefaultParsingTimeout 2 (fun _ => false) 0
        [{ time := 500 * Millisecond, result := resultA },
         { time := 2001 * Millisecond, result := resultB }] []
      = [resultA, resultB] := by
  refine ⟨by decide, by decide⟩

/-- C5, amended: for every number of dispatched tasks and every schedule, the loop
stops as soon as the timeout has elapsed since it last received a result
(since it began, when it has received none), however many results have
arrived: when the results `pre`, fewer than the tasks, are delivered before any
timeout fires and the next one is sent more than the timeout after the last of
them was received, the loop returns the results of `pre` and nothing of what
comes later; when that late result is the only one missing, the others are
all returned, and none for the late URL. -/
theorem mainLoop_stops_at_gap (timeout n : Nat) (coin : Nat → Bool) (pre : List Arrival)
    (late : Arrival) (post : List Arrival)
    (hfewer : pre.length < n) (htime : deliveredInTime timeout 0 pre = true)
    (hlate : clock 0 pre + timeout < late.time) :
    mainLoop timeout n coin 0 (pre ++ late :: post) [] = pre.map Arrival.result ∧
    (pre.length + 1 = n →
      (mainLoop timeout n coin 0 (pre ++ late :: post) []).length = n - 1) ∧
    ((∀ a ∈ pre, a.result.URL ≠ late.result.URL) →
      ∀ r ∈ mainLoop timeout n coin 0 (pre ++ late :: post) [], r.URL ≠ late.result.URL) := by
  have h := mainLoop_gap timeout n coin late post pre 0 [] (by simpa using hfewer) htime hlate
  rw [List.nil_append] at h
  rw [h]
  refine ⟨rfl, ?_, ?_⟩
  · intro hn
    simp only [List.length_map]
    omega
  · intro hdist r hr
    obtain ⟨a, ha, rfl⟩ := List.mem_map.mp hr
    exact hdist a ha

/-- C5, amended, on three tasks: two results are sent after 300 ms and 1900 ms,
the third one 4000 ms after the loop began to wait, more than
`DefaultParsingTimeout` after the second. -/
theorem mainLoop_stops_at_gap_witness :
    mainLoop DefaultParsingTimeout 3 (fun _ => true) 0
        [{ time := 300 * Millisecond, result := resultA },
         { time := 1900 * Millisecond, result := resultB },
         { time := 4000 * Millisecond, result := ⟨"http://c", "C", true, ""⟩ }] []
      = [resultA, resultB] :=
  (mainLoop_stops_at_gap DefaultParsingTimeout 3 (fun _ => true)
    [{ time := 300 * Millisecond, result := resultA },
     { time := 1900 * Millisecond, result := resultB }]
    { time := 4000 * Millisecond, result := ⟨"http://c", "C", true, ""⟩ } []
    (by decide) (by decide) (by decide)).1

/-- C6: when the results of all the dispatched tasks, at least one, are sent on
the channel before any timeout fires, the loop ends with the last of them,
whatever may follow on the channel, and returns exactly these results in the
order of their sends: as many as tasks were dispatched, one for each
dispatched URL. -/
theorem mainLoop_complete (client : String → Nat → Except GoError Response)
    (statusText : Int → String) (parsingFunc : ParsingFunc) (urls : List String)
    (results : List ParsingResult) (pending extra : List Arrival) (timeout : Nat)
    (coin : Nat → Bool) (hne : urls ≠ [])
    (htasks : dispatch (crawlTask client statusText parsingFunc) urls = some results)
    (hsent : (pending.map Arrival.result).Perm results)
    (htime : deliveredInTime timeout 0 pending = true) :
    mainLoop timeout urls.length coin 0 (pending ++ extra) [] = pending.map Arrival.result ∧
    (mainLoop timeout urls.length coin 0 (pending ++ extra) []).length = urls.length ∧
    ((mainLoop timeout urls.length coin 0 (pending ++ extra) []).map ParsingResult.URL).Perm
      urls := by
  have hurls := dispatch_crawlTask_urls client statusText parsingFunc urls results htasks
  have hlen : pending.length = urls.length := by
    have h1 := hsent.length_eq
    have h2 := congrArg List.length hurls
    simp only [List.length_map] at h1 h2
    omega
  have hpne : pending ≠ [] := by
    intro h
    rw [h] at hlen
    exact hne (List.length_eq_zero.mp hlen.symm)
  have hall := mainLoop_all timeout urls.length coin extra pending 0 [] hpne (by simpa using hlen)
    htime
  rw [List.nil_append] at hall
  rw [hall]
  refine ⟨rfl, by simpa using hlen, ?_⟩
  rw [← hurls]
  exact hsent.map ParsingResult.URL

/-- C6 on two dispatched URLs whose results are sent in the opposite order, 300 ms
and 1900 ms after the loop began to wait. -/
theorem mainLoop_complete_witness :
    mainLoop DefaultParsingTimeout 2 (fun _ => false) 0
        [{ time := 300 * Millisecond, result := ⟨"http://b", "First", true, ""⟩ },
         { time := 1900 * Millisecond, result := ⟨"http://a", "First", true, ""⟩ }] []
      = [⟨"http://b", "First", true, ""⟩, ⟨"http://a", "First", true, ""⟩] :=
  (mainLoop_complete (respondingClient 200 (Except.ok [])) statusTextOf
    (parseFunction (parseTo testDoc0)) ["http://a", "http://b"]
    [⟨"http://a", "First", true, ""⟩, ⟨"http://b", "First", true, ""⟩]
    [{ time := 300 * Millisecond, result := ⟨"http://b", "First", true, ""⟩ },
     { time := 1900 * Millisecond, result := ⟨"http://a", "First", true, ""⟩ }] []
    DefaultParsingTimeout (fun _ => false) (by decide) (by decide)
    (List.Perm.swap _ _ _) (by decide)).1

/-! ## Facts about the handler -/

theorem queryValues_ne_nil (query : List (String × String)) (key : String) :
    queryValues query key ≠ some [] := by
  unfold queryValues
  cases (query.filter (fun kv => kv.1 == key)).map (fun kv => kv.2) <;> simp

/-- C2, the claim fails on this input: the request `?url=&url=http://a` carries
two values of `url`, and the handler answers that the parameter is missing and
starts no task, because the first value is empty. -/
theorem crawlerHandler_empty_first_value :
    queryValues [("url", ""), ("url", "http://a")] "url" = some ["", "http://a"] ∧
    crawlerHandler demoEnv [("url", ""), ("url", "http://a")] = some missingReply := by
  refine ⟨by decide, by decide⟩

theorem mainLoop_prefix (timeout n : Nat) (coin : Nat → Bool) :
    ∀ (pending : List Arrival) (now : Nat) (acc : List ParsingResult),
      ∃ l, l <+: pending.map Arrival.result ∧ mainLoop timeout n coin now pending acc = acc ++ l
  | [], _, acc => ⟨[], List.nil_prefix, by simp [mainLoop]⟩
  | a :: rest, now, acc => by
    rw [mainLoop]
    by_cases hc : a.time < now + timeout ∨ (a.time = now + timeout ∧ coin acc.length = true)
    · simp only [hc, if_true]
      by_cases hn : n = (acc ++ [a.result]).length
      · simp only [hn, if_true]
        exact ⟨[a.result], by simp [List.prefix_cons_inj, List.nil_prefix], rfl⟩
      · obtain ⟨l, hl, heq⟩ :=
          mainLoop_prefix timeout n coin rest (max now a.time) (acc ++ [a.result])
        rw [if_neg hn]
        exact ⟨a.result :: l, by simpa [List.prefix_cons_inj] using hl, by simp [heq]⟩
    · simp only [hc, if_false]
      exact ⟨[], List.nil_prefix, by simp⟩

theorem mainLoop_length_le (timeout n : Nat) (coin : Nat → Bool) :
    ∀ (pending : List Arrival) (now : Nat) (acc : List ParsingResult),
      acc.length < n → (mainLoop timeout n coin now pending acc).length ≤ n
  | [], _, acc, h => by simp only [mainLoop]; omega
  | a :: rest, now, acc, h => by
    rw [mainLoop]
    by_cases hc : a.time < now + timeout ∨ (a.time = now + timeout ∧ coin acc.length = true)
    · simp only [hc, if_true]
      by_cases hn : n = (acc ++ [a.result]).length
      · rw [if_pos hn]; omega
      · rw [if_neg hn]
        apply mainLoop_length_le timeout n coin rest (max now a.time) (acc ++ [a.result])
        simp only [List.length_append, List.length_cons, List.length_nil] at hn ⊢
        omega
    · simp only [hc, if_false]; omega

theorem dispatch_forall₂ (task : String → Option ParsingResult) :
    ∀ (urls : List String) (results : List ParsingResult),
      dispatch task urls = some results →
      List.Forall₂ (fun u r => task u = some r) urls results
  | [], results, h => by
    simp only [dispatch, Option.some.injEq] at h
    subst h
    exact List.Forall₂.nil
  | u :: us, results, h => by
    unfold dispatch at h
    cases ht : task u with
    | none => simp [ht] at h
    | some r =>
      cases hm : dispatch task us with
      | none => simp [ht, hm] at h
      | some rs =>
        simp only [ht, hm, Option.some.injEq] at h
        subst h
        exact List.Forall₂.cons ht (dispatch_forall₂ task us rs hm)

theorem dispatch_none (task : String → Option ParsingResult) :
    ∀ urls : List String, (∃ u ∈ urls, task u = none) → dispatch task urls = none
  | [], h => by
    obtain ⟨u, hu, _⟩ := h
    cases hu
  | v :: vs, h => by
    unfold dispatch
    cases ht : task v with
    | none => rfl
    | some r =>
      obtain ⟨u, hu, hnone⟩ := h
      have hmem : u ∈ vs := by
        rcases List.mem_cons.mp hu with h1 | h1
        · subst h1; rw [ht] at hnone; cases hnone
        · exact h1
      simp [dispatch_none task vs ⟨u, hmem, hnone⟩]

theorem filterUrls_length_pos (first : String) (rest : List String) (h : first ≠ "") :
    0 < (filterUrls (first :: rest)).length := by
  have hmem : first ∈ filterUrls (first :: rest) :=
    ((filterUrls_inv (first :: rest)).mem first).mpr ⟨List.mem_cons_self first rest, h⟩
  exact List.length_pos_of_mem hmem

/-- C2, amended: the handler answers with the plain body "Query param 'url' is
missing" and starts no task exactly when the request has no `url` parameter
or the first value of `url` is empty. When the first value is not empty it
filters the values with `filterUrls` and runs a crawl task for each URL that
is left: if one of these tasks panics the handler does not answer; otherwise
it answers with the content type `application/json` and the JSON encoding of
the collected results, which are the first ones of the results of these tasks
in the order of their sends, at most one for each task, and all of them when
all are sent before any timeout fires. -/
theorem crawlerHandler_guard (env : Env) (query : List (String × String)) :
    (crawlerHandler env query = some missingReply ↔
      (queryValues query "url" = none ∨ ∃ rest, queryValues query "url" = some ("" :: rest))) ∧
    (∀ first rest, queryValues query "url" = some (first :: rest) → first ≠ "" →
      ((∃ u ∈ filterUrls (first :: rest),
          crawlTask env.client env.statusText (parseFunction env.htmlParse) u = none) →
        crawlerHandler env query = none) ∧
      ((∀ u ∈ filterUrls (first :: rest),
          crawlTask env.client env.statusText (parseFunction env.htmlParse) u ≠ none) →
        ∃ results resultData,
          List.Forall₂
            (fun u r =>
              crawlTask env.client env.statusText (parseFunction env.htmlParse) u = some r)
            (filterUrls (first :: rest)) results ∧
          resultData <+: (env.schedule results).map Arrival.result ∧
          resultData.length ≤ (filterUrls (first :: rest)).length ∧
          (((env.schedule results).map Arrival.result).Perm results →
            deliveredInTime DefaultParsingTimeout 0 (env.schedule results) = true →
            resultData = (env.schedule results).map Arrival.result) ∧
          crawlerHandler env query
            = some { contentType := some "application/json",
                     body := env.jsonMarshal resultData,
                     dispatched := filterUrls (first :: rest) })) := by
  cases hq : queryValues query "url" with
  | none => simp [crawlerHandler, hq]
  | some vs =>
    cases vs with
    | nil => exact absurd hq (queryValues_ne_nil query "url")
    | cons first rest =>
      by_cases hsize : first.utf8ByteSize < 1
      · have hfirst : first = "" := (utf8ByteSize_eq_zero first).mp (by omega)
        subst hfirst
        constructor
        · simp only [crawlerHandler, hq, hsize, if_true]
          simp
        · intro f r h hne
          simp only [Option.some.injEq, List.cons.injEq] at h
          exact absurd h.1.symm hne
      · have hfirst : first ≠ "" := by
          intro h
          subst h
          exact hsize (by decide)
        constructor
        · constructor
          · intro h
            simp only [crawlerHandler, hq, hsize, if_false] at h
            cases hd : dispatch (crawlTask env.client env.statusText
                (parseFunction env.htmlParse)) (filterUrls (first :: rest)) with
            | none => simp [hd] at h
            | some results => simp [hd, missingReply] at h
          · rintro (h | ⟨r, h⟩)
            · cases h
            · simp only [Option.some.injEq, List.cons.injEq] at h
              exact absurd h.1 hfirst
        · intro f r h _
          simp only [Option.some.injEq, List.cons.injEq] at h
          obtain ⟨h1, h2⟩ := h
          subst h1 h2
          constructor
          · intro hpanic
            simp only [crawlerHandler, hq, hsize, if_false, dispatch_none _ _ hpanic]
          · intro htasks
            obtain ⟨results, hres⟩ := dispatch_isSome _ _ htasks
            have hpos := filterUrls_length_pos first rest hfirst
            have hurls := dispatch_crawlTask_urls env.client env.statusText
              (parseFunction env.htmlParse) _ results hres
            obtain ⟨l, hl, heq⟩ := mainLoop_prefix DefaultParsingTimeout
              (filterUrls (first :: rest)).length env.coin (env.schedule results) 0 []
            refine ⟨results, mainLoop DefaultParsingTimeout (filterUrls (first :: rest)).length
              env.coin 0 (env.schedule results) [], dispatch_forall₂ _ _ _ hres, ?_, ?_, ?_, ?_⟩
            · rw [heq]; simpa using hl
            · exact mainLoop_length_le _ _ _ _ _ _ (by simpa using hpos)
            · intro hperm htime
              have hlen : (env.schedule results).length = (filterUrls (first :: rest)).length := by
                have h1 := hperm.length_eq
                have h2 := congrArg List.length hurls
                simp only [List.length_map] at h1 h2
                omega
              have hne : env.schedule results ≠ [] := by
                intro h0
                rw [h0] at hlen
                simp at hlen
                omega
              have hall := mainLoop_all DefaultParsingTimeout (filterUrls (first :: rest)).length
                env.coin [] (env.schedule results) 0 [] hne (by simpa using hlen) htime
              simpa using hall
            · simp only [crawlerHandler, hq, hsize, if_false, hres]

/-- C2, amended, on the request `?url=http://a&url=&url=http://a&url=http://b`: the
handler runs a task for `http://a` and one for `http://b` and answers with both
results. -/
theorem crawlerHandler_guard_witness :
    crawlerHandler demoEnv
        [("url", "http://a"), ("url", ""), ("url", "http://a"), ("url", "http://b")]
      = some { contentType := some "application/json",
               body := "[http://a,http://b]",
               dispatched := ["http://a", "http://b"] } ∧
    ∃ results resultData,
      List.Forall₂
        (fun u r =>
          crawlTask demoEnv.client demoEnv.statusText (parseFunction demoEnv.htmlParse) u
            = some r)
        (filterUrls ["http://a", "", "http://a", "http://b"]) results ∧
      resultData <+: (demoEnv.schedule results).map Arrival.result ∧
      resultData.length ≤ (filterUrls ["http://a", "", "http://a", "http://b"]).length ∧
      (((demoEnv.schedule results).map Arrival.result).Perm results →
        deliveredInTime DefaultParsingTimeout 0 (demoEnv.schedule results) = true →
        resultData = (demoEnv.schedule results).map Arrival.result) ∧
      crawlerHandler demoEnv
          [("url", "http://a"), ("url", ""), ("url", "http://a"), ("url", "http://b")]
        = some { contentType := some "application/json",
                 body := demoEnv.jsonMarshal resultData,
                 dispatched := filterUrls ["http://a", "", "http://a", "http://b"] } :=
  ⟨by decide,
   ((crawlerHandler_guard demoEnv
      [("url", "http://a"), ("url", ""), ("url", "http://a"), ("url", "http://b")]).2
      "http://a" ["", "http://a", "http://b"] (by decide) (by decide)).2 (by decide)⟩

end SimpleCrawler
